import Mathlib

/-!
Shallow embedding of the timetable generation engine of
`backend/scheduler/timetable_generator.py` (function `generate_timetable`),
together with the catalog data model of `backend/scheduler/models.py`.

Conventions of the embedding:
* Django model rows become plain structures; foreign keys are stored as ids.
* Query sets become Lean lists in catalog order; `filter` keeps list order,
  `order_by` is a stable sort, matching Django/CPython semantics.
* The process-global `random` module is modelled as a stream `ℕ → F` of the
  values returned by successive calls, together with a counter threaded
  through the computation (each call to `random.random` / `random.uniform`
  consumes one value).
* Python floats are modelled as rationals; `//` is `Nat` division.
* The `ScheduledSession` table is modelled as a `List Session` passed in and
  returned, so that the delete-then-recreate behaviour is observable.
* `raise ValueError` becomes `Except.error`.
-/

namespace Timetable

/-- Python float values of the engine (scores, priorities, percentages,
random draws) modelled as exact fractions.  The fraction is kept
unnormalised so that every arithmetic step is primitive integer
arithmetic; every denominator produced along the engine's computations is
positive, and the order comparison below is cross-multiplication, which is
the real-number order on such fractions. -/
structure F where
  num : Int
  den : Int
  deriving DecidableEq, Repr

instance : Add F := ⟨fun a b => ⟨a.num * b.den + b.num * a.den, a.den * b.den⟩⟩

instance : Mul F := ⟨fun a b => ⟨a.num * b.num, a.den * b.den⟩⟩

instance : Div F := ⟨fun a b => ⟨a.num * b.den, a.den * b.num⟩⟩

instance (n : Nat) : OfNat F n := ⟨⟨Int.ofNat n, 1⟩⟩

instance : NatCast F := ⟨fun n => ⟨Int.ofNat n, 1⟩⟩

instance : IntCast F := ⟨fun n => ⟨n, 1⟩⟩

instance : LT F := ⟨fun a b => a.num * b.den < b.num * a.den⟩

instance (a b : F) : Decidable (a < b) :=
  inferInstanceAs (Decidable (a.num * b.den < b.num * a.den))

/-- Value equality of fractions (the `==` of Python floats). -/
def F.beqv (a b : F) : Bool := a.num * b.den == b.num * a.den

/-- `scheduler.models.Section` (fields used by the generator). -/
structure SectionR where
  id : Nat
  semesterId : Nat
  name : String
  deriving DecidableEq, Repr

/-- `scheduler.models.Subject` (fields used by the generator). -/
structure Subject where
  id : Nat
  semesterId : Nat
  name : String
  weeklyHours : Int
  labRequired : Bool
  deriving DecidableEq, Repr

/-- `scheduler.models.Faculty` (fields used by the generator). -/
structure Faculty where
  id : Nat
  name : String
  maxHoursPerWeek : Int
  deriving DecidableEq, Repr

/-- `scheduler.models.FacultySubjectAllocation`. -/
structure Allocation where
  id : Nat
  facultyId : Nat
  subjectId : Nat
  hoursPerWeek : Int
  deriving DecidableEq, Repr

/-- `scheduler.models.Room`. -/
structure Room where
  id : Nat
  name : String
  isLab : Bool
  deriving DecidableEq, Repr

/-- `scheduler.models.TimetableSlot`. -/
structure Slot where
  id : Nat
  day : Nat
  periodNumber : Nat
  deriving DecidableEq, Repr

/-- `scheduler.models.InstitutionSettings` (fields used by the generator). -/
structure Settings where
  workingDays : Nat
  periodsPerDay : Nat
  deriving DecidableEq, Repr

/-- The read-only catalog served by the database to `generate_timetable`.
`settings` is `InstitutionSettings.objects.first()`. -/
structure Catalog where
  sections : List SectionR
  subjects : List Subject
  faculties : List Faculty
  allocations : List Allocation
  rooms : List Room
  slots : List Slot
  settings : Option Settings
  deriving DecidableEq, Repr

/-- A stored `scheduler.models.ScheduledSession` row (foreign keys as ids). -/
structure Session where
  sectionId : Nat
  subjectId : Nat
  facultyId : Nat
  roomId : Nat
  slotId : Nat
  isLabSession : Bool
  deriving DecidableEq, Repr

/-- One element of the generator's `all_sessions` work list (the
`session_data` dict of lines 125-137; only fields read later are kept). -/
structure Demand where
  sec : SectionR
  subject : Subject
  faculty : Faculty
  availableRooms : List Room
  sessionNum : Nat
  isLab : Bool
  priority : F
  allocationHours : Int
  deriving DecidableEq, Repr

/-- One element of the `result` list (the dict of lines 350-360). -/
structure Entry where
  sectionId : Nat
  subject : String
  faculty : String
  room : String
  day : Nat
  period : Nat
  isLab : Bool
  allocationHours : Int
  facultyTotalLoad : Nat
  deriving DecidableEq, Repr

/-- One element of `faculty_utilization_stats` (lines 390-397). -/
structure FacultyStat where
  name : String
  used : Nat
  limit : Int
  percentage : F
  subjectsTaught : List String
  subjectCount : Nat
  deriving DecidableEq, Repr

/-- The `stats` dict of the returned value (lines 466-479). -/
structure Stats where
  scheduled : Nat
  skipped : Nat
  successRate : F
  slotUtilization : F
  facultyUtilization : List FacultyStat
  dayUtilization : List (Nat × F)
  totalSessionsNeeded : Nat
  totalSlotsAvailable : Nat
  sectionsTotal : Nat
  sectionsWithoutSessions : Nat
  underutilizedFaculty : Nat
  facultyAtMaxCapacity : Nat
  deriving DecidableEq, Repr

/-- The `warnings` dict of the returned value (lines 480-485); the
string formatting of the Python f-strings is kept as structured pairs. -/
structure Warnings where
  sectionsWithoutSessions : List String
  underutilizedFaculty : List (String × F)
  overutilizedFaculty : List (String × Nat × Int)
  lowSuccessRate : Bool
  deriving DecidableEq, Repr

/-- The success payload returned by `generate_timetable` (lines 462-486). -/
structure Output where
  timetable : List Entry
  stats : Stats
  warnings : Warnings
  deriving DecidableEq, Repr

/-- Mutable in-memory scheduling state of one pass: the tracking
dictionaries of lines 32-39, the created `ScheduledSession` rows, the
`result` list, both counters, the dict-key insertion order of
`faculty_hours_used`, and the position in the random stream. -/
structure St where
  facSched : Nat → List Nat
  facHours : Nat → Nat
  roomSched : Nat → List Nat
  secSched : Nat → List Nat
  secDay : Nat → Nat → Nat
  subjDay : Nat → Nat → Nat → Nat
  facKeys : List Nat
  created : List Session
  result : List Entry
  scheduled : Nat
  skipped : Nat
  rix : Nat

/-- Boolean membership in a list of ids (`x in someSet` on the Python side). -/
def memN (x : Nat) : List Nat → Bool
  | [] => false
  | y :: ys => x == y || memN x ys

theorem memN_iff {x : Nat} {l : List Nat} : memN x l = true ↔ x ∈ l := by
  induction l with
  | nil => simp [memN]
  | cons y ys ih =>
    simp only [memN, Bool.or_eq_true, beq_iff_eq, ih, List.mem_cons]

/-- Stable insertion of `x` into `l`:
`x` goes in front of the first element `y` with `lt x y`. -/
def insertS (lt : α → α → Bool) (x : α) : List α → List α
  | [] => [x]
  | y :: ys => if lt x y then x :: y :: ys else y :: insertS lt x ys

/-- Stable sort (the semantics of CPython's `list.sort`): elements are
inserted left to right, each after the already-placed equal elements. -/
def insSort (lt : α → α → Bool) (l : List α) : List α :=
  l.foldl (fun acc x => insertS lt x acc) []

theorem insertS_perm (lt : α → α → Bool) (x : α) (l : List α) :
    List.Perm (insertS lt x l) (x :: l) := by
  induction l with
  | nil => simp [insertS]
  | cons y ys ih =>
    by_cases h : lt x y = true
    · simp [insertS, h]
    · simp only [insertS, h, if_false, Bool.false_eq_true]
      exact ((ih.cons y).trans (List.Perm.swap x y ys))

theorem insSort_foldl_perm (lt : α → α → Bool) (l acc : List α) :
    List.Perm (l.foldl (fun a x => insertS lt x a) acc) (acc ++ l) := by
  induction l generalizing acc with
  | nil => simp
  | cons x xs ih =>
    simp only [List.foldl_cons]
    refine (ih (insertS lt x acc)).trans ?_
    refine (List.Perm.append_right xs (insertS_perm lt x acc)).trans ?_
    exact (List.perm_middle).symm.trans (by simp)

theorem insSort_perm (lt : α → α → Bool) (l : List α) :
    List.Perm (insSort lt l) l := by
  simpa [insSort] using insSort_foldl_perm lt l []

theorem mem_insSort {lt : α → α → Bool} {l : List α} {a : α} :
    a ∈ insSort lt l ↔ a ∈ l :=
  (insSort_perm lt l).mem_iff

theorem insSort_length (lt : α → α → Bool) (l : List α) :
    (insSort lt l).length = l.length :=
  (insSort_perm lt l).length_eq

theorem insSort_eq_nil_iff {lt : α → α → Bool} {l : List α} :
    insSort lt l = [] ↔ l = [] := by
  constructor
  · intro h
    have := insSort_length lt l
    rw [h] at this
    exact List.eq_nil_of_length_eq_zero this.symm
  · intro h; subst h; rfl

/-- First success of `f` over a list (the `for ... break` search pattern). -/
def firstSome (f : α → Option β) : List α → Option β
  | [] => none
  | a :: as =>
    match f a with
    | some b => some b
    | none => firstSome f as

theorem firstSome_eq_some {f : α → Option β} {l : List α} {b : β}
    (h : firstSome f l = some b) : ∃ a ∈ l, f a = some b := by
  induction l with
  | nil => simp [firstSome] at h
  | cons a as ih =>
    by_cases ha : (f a).isSome
    · obtain ⟨b0, hb0⟩ := Option.isSome_iff_exists.mp ha
      simp only [firstSome, hb0] at h
      exact ⟨a, List.mem_cons_self a as, hb0.trans h⟩
    · have hn : f a = none := Option.not_isSome_iff_eq_none.mp ha
      simp only [firstSome, hn] at h
      obtain ⟨a', ha', hfa'⟩ := ih h
      exact ⟨a', List.mem_cons_of_mem a ha', hfa'⟩

/-- `faculty_limits` of lines 44-52 viewed as a lookup with the default of
`faculty_limits.get(faculty.id, 18)`: the clamped weekly limit
`max(1, min(max_hours_per_week, working_days * periods_per_day))`.
The dict is built by iteration over all faculties, so on a duplicate id the
last row wins; hence the reversed search. -/
def limitOf (c : Catalog) (S : Settings) (fid : Nat) : Int :=
  match c.faculties.reverse.find? (fun f => f.id == fid) with
  | some f => max 1 (min f.maxHoursPerWeek ((S.workingDays * S.periodsPerDay : Nat) : Int))
  | none => 18

theorem one_le_limitOf (c : Catalog) (S : Settings) (fid : Nat) :
    1 ≤ limitOf c S fid := by
  unfold limitOf
  cases c.faculties.reverse.find? (fun f => f.id == fid) with
  | none => norm_num
  | some f => exact le_max_left _ _

/-- Dereference the `allocation.faculty` foreign key (`Faculty.objects.get`). -/
def findFaculty (c : Catalog) (fid : Nat) : Faculty :=
  (c.faculties.find? (fun f => f.id == fid)).getD ⟨fid, "", 0⟩

/-- The `available_rooms` computation of lines 101-111: rooms of the
subject's required type, falling back to the other kind when none exist
(for theory subjects the fallback is `Room.objects.all()`, which at that
point contains only labs). -/
def availableRoomsFor (rooms : List Room) (labRequired : Bool) : List Room :=
  if labRequired then
    let labs := rooms.filter (fun rm => rm.isLab)
    if labs.isEmpty then rooms.filter (fun rm => !rm.isLab) else labs
  else
    let regular := rooms.filter (fun rm => !rm.isLab)
    if regular.isEmpty then rooms else regular

/-- The body of the allocation loop of lines 75-137: decide how many
one-period sessions this faculty-subject allocation contributes, update the
`sessions_by_faculty` commitment map, and emit the `session_data` records.
Returns the emitted demands and the updated commitment map. -/
def processAllocation (c : Catalog) (S : Settings) (sbf : Nat → Int)
    (sec : SectionR) (subj : Subject) (alloc : Allocation) :
    List Demand × (Nat → Int) :=
  let faculty := findFaculty c alloc.facultyId
  if alloc.hoursPerWeek ≤ 0 then ([], sbf)
  else
    let needed1 : Int := min alloc.hoursPerWeek (S.periodsPerDay : Int)
    let facultyLimit := limitOf c S faculty.id
    let facultyRemaining := facultyLimit - sbf faculty.id
    if facultyRemaining ≤ 0 then ([], sbf)
    else
      let needed : Int := max 1 (min needed1 facultyRemaining)
      let sbf1 : Nat → Int :=
        fun fid => if fid = faculty.id then sbf fid + needed else sbf fid
      let rooms := availableRoomsFor c.rooms subj.labRequired
      if rooms.isEmpty then ([], sbf1)
      else
        let priorityBoost : F := if subj.labRequired then 0 else 5
        let loadFactor : F :=
          if 0 < facultyLimit then (sbf1 faculty.id : F) / (facultyLimit : F) else 0
        ((List.range needed.toNat).map (fun n =>
          { sec := sec, subject := subj, faculty := faculty,
            availableRooms := rooms, sessionNum := n, isLab := subj.labRequired,
            priority := (n : F) + priorityBoost + loadFactor * 2,
            allocationHours := alloc.hoursPerWeek }), sbf1)

/-- Inner loop of lines 75-137 over the allocations of one subject. -/
def buildAllocs (c : Catalog) (S : Settings) (sec : SectionR) (subj : Subject) :
    List Allocation → (Nat → Int) → List Demand × (Nat → Int)
  | [], sbf => ([], sbf)
  | a :: as, sbf =>
    let p := processAllocation c S sbf sec subj a
    let rest := buildAllocs c S sec subj as p.2
    (p.1 ++ rest.1, rest.2)

/-- Loop of lines 65-137 over the subjects of one section; a subject with no
allocations contributes nothing (the `continue` of line 70). -/
def buildSubjects (c : Catalog) (S : Settings) (sec : SectionR) :
    List Subject → (Nat → Int) → List Demand × (Nat → Int)
  | [], sbf => ([], sbf)
  | subj :: rest, sbf =>
    let allocs := c.allocations.filter (fun a => a.subjectId == subj.id)
    let p := buildAllocs c S sec subj allocs sbf
    let q := buildSubjects c S sec rest p.2
    (p.1 ++ q.1, q.2)

/-- Loop of lines 61-137 over all sections. -/
def buildSections (c : Catalog) (S : Settings) :
    List SectionR → (Nat → Int) → List Demand × (Nat → Int)
  | [], sbf => ([], sbf)
  | sec :: rest, sbf =>
    let subjects := c.subjects.filter (fun s => s.semesterId == sec.semesterId)
    let p := buildSubjects c S sec subjects sbf
    let q := buildSections c S rest p.2
    (p.1 ++ q.1, q.2)

/-- The Demand Builder: the full `all_sessions` list of one pass together
with the final `sessions_by_faculty` map. -/
def buildDemandsAll (c : Catalog) (S : Settings) : List Demand × (Nat → Int) :=
  buildSections c S c.sections (fun _ => 0)

/-- The tuple returned by `session_sort_key` (lines 161-169). -/
structure SKey where
  loadFrac : F
  secLoad : Nat
  priority : F
  rand : F
  deriving DecidableEq, Repr

/-- Lexicographic `<` on the Python sort-key tuples. -/
def skeyLt (x y : SKey) : Bool :=
  decide (x.loadFrac < y.loadFrac) ||
    (F.beqv x.loadFrac y.loadFrac &&
      (decide (x.secLoad < y.secLoad) ||
        (x.secLoad == y.secLoad &&
          (decide (x.priority < y.priority) ||
            (F.beqv x.priority y.priority && decide (x.rand < y.rand))))))

/-- `session_sort_key` of lines 161-169 for one demand; `rv` is the value
drawn from `random.random()`. -/
def sessionSortKey (c : Catalog) (S : Settings) (st : St) (d : Demand)
    (rv : F) : SKey :=
  let facultyLimit := limitOf c S d.faculty.id
  let loadFrac : F :=
    if 0 < facultyLimit then (st.facHours d.faculty.id : F) / (facultyLimit : F)
    else 1
  { loadFrac := loadFrac, secLoad := (st.secSched d.sec.id).length,
    priority := d.priority, rand := rv }

/-- CPython `list.sort(key=...)` evaluates the key once per element, in list
order, before sorting; each evaluation consumes one value of the random
stream.  Returns the keyed list and the next stream position. -/
def mkKeys (c : Catalog) (S : Settings) (st : St) (r : ℕ → F) :
    List Demand → Nat → List (SKey × Demand) × Nat
  | [], i => ([], i)
  | d :: ds, i =>
    let rest := mkKeys c S st r ds (i + 1)
    ((sessionSortKey c S st d (r i), d) :: rest.1, rest.2)

theorem mkKeys_map_snd (c : Catalog) (S : Settings) (st : St) (r : ℕ → F)
    (ds : List Demand) (i : Nat) :
    ((mkKeys c S st r ds i).1.map Prod.snd) = ds := by
  induction ds generalizing i with
  | nil => rfl
  | cons d rest ih => simp [mkKeys, ih]

/-- The `slots_by_day` grouping of lines 174-176 for one day (grouping by
append preserves the order of the sorted slot list, i.e. is a filter). -/
def slotsOfDay (slots : List Slot) (day : Nat) : List Slot :=
  slots.filter (fun s => s.day == day)

/-- Sort key of line 238: distance of the period from the middle period. -/
def midDist (S : Settings) (s : Slot) : Nat :=
  ((s.periodNumber : Int) - ((S.periodsPerDay / 2 : Nat) : Int)).natAbs

/-- Line 235-238: the day's slots tried in order of middle-period distance. -/
def slotAttempts (S : Settings) (daySlots : List Slot) : List Slot :=
  insSort (fun a b => decide (midDist S a < midDist S b)) daySlots

/-- The `day_total_sessions` sum of lines 210-213 (kept as written in the
source: a section whose occupancy touches the day contributes its whole
occupancy count, any day). -/
def dayTotal (c : Catalog) (st : St) (slots : List Slot) (day : Nat) : Nat :=
  (c.sections.map (fun s2 =>
    if slots.any (fun sl => sl.day == day && memN sl.id (st.secSched s2.id))
    then (st.secSched s2.id).length else 0)).sum

/-- The score of one day (lines 216-221); `jitter` is the value drawn from
`random.uniform(0, 0.3)`. -/
def dayScore (c : Catalog) (st : St) (slots : List Slot) (sec : SectionR)
    (subj : Subject) (day : Nat) (jitter : F) : F :=
  (st.subjDay sec.id subj.id day : F) * 10 +
    (st.secDay sec.id day : F) * 3 +
    (dayTotal c st slots day : F) * 1 + jitter

/-- Lines 202-223: score every working day, consuming one random value per
day, in day order. -/
def dayScoresGo (c : Catalog) (st : St) (slots : List Slot) (sec : SectionR)
    (subj : Subject) (r : ℕ → F) : List Nat → Nat → List (F × Nat) × Nat
  | [], i => ([], i)
  | day :: ds, i =>
    let rest := dayScoresGo c st slots sec subj r ds (i + 1)
    ((dayScore c st slots sec subj day (r i), day) :: rest.1, rest.2)

/-- `day_scores.sort()` of line 226: ascending lexicographic tuple order. -/
def sortDayScores (l : List (F × Nat)) : List (F × Nat) :=
  insSort (fun a b =>
    decide (a.1 < b.1) || (F.beqv a.1 b.1 && decide (a.2 < b.2))) l

/-- Lines 247-259: pick a room for this slot, preferring the least occupied
(stable sort on the current usage count), first one free at the slot. -/
def findRoom (st : St) (rooms : List Room) (slotId : Nat) : Option Room :=
  let usage := rooms.map (fun rm => (rm, (st.roomSched rm.id).length))
  let sorted := insSort (fun a b => decide (a.2 < b.2)) usage
  (sorted.find? (fun p => !memN slotId (st.roomSched p.1.id))).map Prod.fst

/-- The consecutive-session count of lines 262-274: existing sessions of the
same (section, subject) in periods of the same day within `±limit` of this
period (the period itself excluded), read back from the rows created so far
in this pass (the store was cleared at the start of the pass). -/
def consecCount (S : Settings) (st : St) (slots : List Slot) (sec : SectionR)
    (subj : Subject) (slot : Slot) (limit : Nat) : Nat :=
  let lo := max 1 (slot.periodNumber - limit)
  let hi := min (S.periodsPerDay + 1) (slot.periodNumber + limit + 1)
  ((List.range' lo (hi - lo)).filter (fun q =>
    q != slot.periodNumber &&
      match slots.find? (fun s2 => s2.day == slot.day && s2.periodNumber == q) with
      | some cs =>
        st.created.any (fun ss =>
          ss.sectionId == sec.id && ss.subjectId == subj.id && ss.slotId == cs.id)
      | none => false)).length

/-- The hard-filter chain of lines 240-307 for a single candidate slot:
faculty conflict, section conflict, room availability, consecutive cap,
per-day section cap.  (The lab-adjacency block of lines 279-297 computes a
flag and then does nothing, so it is omitted.) -/
def trySlotMain (S : Settings) (st : St) (slots : List Slot)
    (d : Demand) (slot : Slot) : Option (Slot × Room) :=
  if memN slot.id (st.facSched d.faculty.id) then none
  else if memN slot.id (st.secSched d.sec.id) then none
  else
    match findRoom st d.availableRooms slot.id with
    | none => none
    | some room =>
      let consecutiveLimit := if d.isLab then 3 else 2
      if consecutiveLimit ≤ consecCount S st slots d.sec d.subject slot consecutiveLimit
      then none
      else
        let maxSessionsPerDay := min 4 (S.periodsPerDay / 2 + 1)
        if maxSessionsPerDay ≤ st.secDay d.sec.id slot.day then none
        else some (slot, room)

/-- The day loop of lines 229-310: first day (in score order) whose slot
attempts produce a placement. -/
def tryDays (S : Settings) (st : St) (slots : List Slot)
    (d : Demand) : List (F × Nat) → Option (Slot × Room)
  | [] => none
  | (_, day) :: rest =>
    match firstSome (trySlotMain S st slots d)
        (slotAttempts S (slotsOfDay slots day)) with
    | some pr => some pr
    | none => tryDays S st slots d rest

/-- The Slot Selector (lines 201-310): rank the days, then search; returns
the placement, if any, and the new random-stream position. -/
def selectMain (c : Catalog) (S : Settings) (slots : List Slot) (r : ℕ → F)
    (st : St) (d : Demand) : Option (Slot × Room) × Nat :=
  let scores := dayScoresGo c st slots d.sec d.subject r
    (List.range' 1 S.workingDays) st.rix
  (tryDays S st slots d (sortDayScores scores.1), scores.2)

/-- One slot of the fallback scan (lines 315-327): only the faculty,
section and room occupancy conflicts plus the relaxed per-day section cap
`section_day_count < periods_per_day`. -/
def tryFallback (S : Settings) (st : St) (d : Demand) (slot : Slot) :
    Option (Slot × Room) :=
  if !memN slot.id (st.facSched d.faculty.id) &&
      !memN slot.id (st.secSched d.sec.id) then
    firstSome (fun room =>
      if !memN slot.id (st.roomSched room.id) then
        if st.secDay d.sec.id slot.day < S.periodsPerDay then some (slot, room)
        else none
      else none) d.availableRooms
  else none

/-- The Fallback Resolver (lines 312-327): scan all slots in their sorted
(day, period) order. -/
def selectFallback (S : Settings) (st : St) (slots : List Slot) (d : Demand) :
    Option (Slot × Room) :=
  firstSome (tryFallback S st d) slots

/-- Lines 197-327 for one demand: main selector, then fallback.  Returns
the placement, if any, and the new random-stream position. -/
def pickSlot (c : Catalog) (S : Settings) (slots : List Slot) (r : ℕ → F)
    (st : St) (d : Demand) : Option (Slot × Room) × Nat :=
  let pr := selectMain c S slots r st d
  match pr.1 with
  | some p => (some p, pr.2)
  | none => (selectFallback S st slots d, pr.2)

/-- The `ScheduledSession.objects.create` call of lines 340-347. -/
def mkSession (d : Demand) (slot : Slot) (room : Room) : Session :=
  { sectionId := d.sec.id, subjectId := d.subject.id,
    facultyId := d.faculty.id, roomId := room.id, slotId := slot.id,
    isLabSession := d.isLab }

/-- The `result.append` dict of lines 350-360 (`hrs` is the faculty's hour
counter after the increment of line 333). -/
def mkEntry (d : Demand) (slot : Slot) (room : Room) (hrs : Nat) : Entry :=
  { sectionId := d.sec.id, subject := d.subject.name,
    faculty := d.faculty.name, room := room.name, day := slot.day,
    period := slot.periodNumber, isLab := d.isLab,
    allocationHours := d.allocationHours, facultyTotalLoad := hrs }

/-- The commit of an accepted assignment (lines 331-362): update every
tracking structure, create the `ScheduledSession` row, append the result
entry, bump the scheduled counter.  The dict write
`faculty_hours_used[id] = ...` inserts the key on first write. -/
def commit (st : St) (d : Demand) (slot : Slot) (room : Room) : St :=
  let fid := d.faculty.id
  let hrs := st.facHours fid + 1
  { st with
    facSched := fun x => if x = fid then slot.id :: st.facSched x else st.facSched x,
    facHours := fun x => if x = fid then hrs else st.facHours x,
    roomSched := fun x => if x = room.id then slot.id :: st.roomSched x else st.roomSched x,
    secSched := fun x => if x = d.sec.id then slot.id :: st.secSched x else st.secSched x,
    secDay := fun x y => if x = d.sec.id ∧ y = slot.day then st.secDay x y + 1 else st.secDay x y,
    subjDay := fun x y z =>
      if x = d.sec.id ∧ y = d.subject.id ∧ z = slot.day then st.subjDay x y z + 1
      else st.subjDay x y z,
    facKeys := if memN fid st.facKeys then st.facKeys else st.facKeys ++ [fid],
    created := st.created ++ [mkSession d slot room],
    result := st.result ++ [mkEntry d slot room hrs],
    scheduled := st.scheduled + 1 }

/-- The scheduling loop of lines 182-367 over the sorted demand queue:
hard faculty-hour pre-check (lines 190-195), slot selection with fallback,
commit or skip. -/
def schedLoop (c : Catalog) (S : Settings) (slots : List Slot) (r : ℕ → F) :
    List Demand → St → St
  | [], st => st
  | d :: ds, st =>
    if limitOf c S d.faculty.id ≤ (st.facHours d.faculty.id : Int) then
      schedLoop c S slots r ds { st with skipped := st.skipped + 1 }
    else
      let pk := pickSlot c S slots r st d
      match pk.1 with
      | some (slot, room) =>
        schedLoop c S slots r ds (commit { st with rix := pk.2 } d slot room)
      | none =>
        schedLoop c S slots r ds
          { st with rix := pk.2, skipped := st.skipped + 1 }

/-- The `faculty_subject_breakdown` insertion of lines 377-381: an
insertion-ordered dict from faculty name to the list of distinct
"subject (hours)" labels. -/
def addBreakdown (m : List (String × List String)) (k v : String) :
    List (String × List String) :=
  if m.any (fun p => p.1 == k) then
    m.map (fun p => if p.1 == k then (p.1, if p.2.contains v then p.2 else p.2 ++ [v]) else p)
  else m ++ [(k, [v])]

/-- The subject label of line 379 (allocation hours are always present). -/
def subjectLabel (e : Entry) : String :=
  e.subject ++ " (" ++ toString e.allocationHours ++ "h)"

/-- `faculty_subject_breakdown` built by folding over `result`. -/
def breakdownOf (result : List Entry) : List (String × List String) :=
  result.foldl (fun m e => addBreakdown m e.faculty (subjectLabel e)) []

/-- Lookup in the breakdown dict (`.get(faculty.name, [])` of line 388). -/
def breakdownGet (m : List (String × List String)) (k : String) : List String :=
  ((m.find? (fun p => p.1 == k)).map Prod.snd).getD []

/-- The per-faculty utilization entries of lines 383-397, iterating the
`faculty_hours_used` dict in key-insertion order. -/
def facultyStats (c : Catalog) (S : Settings) (st : St) : List FacultyStat :=
  let bd := breakdownOf st.result
  st.facKeys.map (fun fid =>
    let faculty := findFaculty c fid
    let used := st.facHours fid
    let lim := limitOf c S fid
    let pct : F := if 0 < lim then (used : F) / (lim : F) * 100 else 0
    let taught := breakdownGet bd faculty.name
    { name := faculty.name, used := used, limit := lim, percentage := pct,
      subjectsTaught := taught, subjectCount := taught.length })

/-- Lines 400-407: per-day utilization percentages, in day order. -/
def dayUtilizationOf (c : Catalog) (S : Settings) (st : St) :
    List (Nat × F) :=
  (List.range' 1 S.workingDays).map (fun day =>
    let daySessions := (st.result.filter (fun e => e.day == day)).length
    let totalPossible := S.periodsPerDay * c.sections.length
    (day, if 0 < totalPossible then (daySessions : F) / (totalPossible : F) * 100 else 0))

/-- Lines 419-423: names of sections with no result entry. -/
def sectionsWithoutSessionsOf (c : Catalog) (st : St) : List String :=
  (c.sections.filter (fun sec =>
    !(st.result.any (fun e => e.sectionId == sec.id)))).map (fun sec => sec.name)

/-- Lines 429-440: the under- and over-utilization warning lists, iterating the
`faculty_hours_used` dict in key-insertion order (`elif`: a faculty lands in
at most one list). -/
def utilizationWarnings (c : Catalog) (S : Settings) (st : St) :
    List (String × F) × List (String × Nat × Int) :=
  st.facKeys.foldl (fun acc fid =>
    let faculty := findFaculty c fid
    let used := st.facHours fid
    let lim := limitOf c S fid
    let rate : F := if 0 < lim then (used : F) / (lim : F) * 100 else 0
    if rate < 50 ∧ 0 < used then (acc.1 ++ [(faculty.name, rate)], acc.2)
    else if lim ≤ (used : Int) then (acc.1, acc.2 ++ [(faculty.name, used, lim)])
    else acc) ([], [])

/-- The Result Assembler (lines 369-486, success branch): statistics and
warning payload around the result list.  `demandCount` is
`len(all_sessions)`. -/
def assembleOutput (c : Catalog) (S : Settings) (slots : List Slot) (st : St)
    (demandCount : Nat) : Output :=
  let totalSlotsAvailable := slots.length * c.sections.length
  let overallUtilization : F :=
    if 0 < totalSlotsAvailable then
      (st.scheduled : F) / (totalSlotsAvailable : F) * 100
    else 0
  let without := sectionsWithoutSessionsOf c st
  let uw := utilizationWarnings c S st
  let successRate : F := (st.scheduled : F) / (demandCount : F) * 100
  { timetable := st.result,
    stats :=
      { scheduled := st.scheduled, skipped := st.skipped,
        successRate := successRate, slotUtilization := overallUtilization,
        facultyUtilization := facultyStats c S st,
        dayUtilization := dayUtilizationOf c S st,
        totalSessionsNeeded := demandCount,
        totalSlotsAvailable := totalSlotsAvailable,
        sectionsTotal := c.sections.length,
        sectionsWithoutSessions := without.length,
        underutilizedFaculty := uw.1.length,
        facultyAtMaxCapacity := uw.2.length },
    warnings :=
      { sectionsWithoutSessions := without, underutilizedFaculty := uw.1,
        overutilizedFaculty := uw.2, lowSuccessRate := decide (successRate < 70) } }

/-- `order_by('day', 'period_number')` of line 12. -/
def slotLt (a b : Slot) : Bool :=
  decide (a.day < b.day) || (a.day == b.day && decide (a.periodNumber < b.periodNumber))

/-- The initial scheduling state of lines 31-41 (`i0` is the random-stream
position after the sort keys have been drawn). -/
def initSt (i0 : Nat) : St :=
  { facSched := fun _ => [], facHours := fun _ => 0, roomSched := fun _ => [],
    secSched := fun _ => [], secDay := fun _ _ => 0, subjDay := fun _ _ _ => 0,
    facKeys := [], created := [], result := [], scheduled := 0, skipped := 0,
    rix := i0 }

/-- Lines 160-171: the `all_sessions` queue after `all_sessions.sort(...)`,
together with the random-stream position after the key draws. -/
def sortedDemands (c : Catalog) (S : Settings) (r : ℕ → F) :
    List Demand × Nat :=
  let keyed := mkKeys c S (initSt 0) r (buildDemandsAll c S).1 0
  ((insSort (fun a b => skeyLt a.1 b.1) keyed.1).map Prod.snd, keyed.2)

/-- The complete scheduling state at the end of the main loop of one pass
(prerequisite checks already passed). -/
def passState (c : Catalog) (S : Settings) (r : ℕ → F) : St :=
  let sd := sortedDemands c S r
  schedLoop c S (insSort slotLt c.slots) r sd.1 (initSt sd.2)

/-- The success payload of lines 462-486. -/
def okOutput (c : Catalog) (S : Settings) (r : ℕ → F) : Output :=
  assembleOutput c S (insSort slotLt c.slots) (passState c S r)
    (sortedDemands c S r).1.length

/-- `generate_timetable` of lines 8-486.  `db` is the `ScheduledSession`
table before the call; the second component is the table after the call
(cleared at line 29 once the three prerequisite checks pass, then filled by
the pass).  `r` is the stream of values produced by the process-global
random generator. -/
def generateTimetable (c : Catalog) (db : List Session) (r : ℕ → F) :
    Except String Output × List Session :=
  match c.settings with
  | none => (Except.error "No institution settings found", db)
  | some S =>
    if c.sections = [] then (Except.error "No sections found", db)
    else if insSort slotLt c.slots = [] then
      (Except.error "No time slots found", db)
    else
      let stF := passState c S r
      if stF.scheduled = 0 then
        (Except.error
          "No sessions could be scheduled. Please check faculty hour limits and room availability.",
          stF.created)
      else (Except.ok (okOutput c S r), stF.created)

/-! ### Soundness of the slot search

A placement returned by the Slot Selector or the Fallback Resolver never
clashes with the occupancy sets of the current state, its room comes from
the demand's eligible rooms, and its slot from the slot list. -/

theorem findRoom_sound {st : St} {rooms : List Room} {slotId : Nat} {room : Room}
    (h : findRoom st rooms slotId = some room) :
    room ∈ rooms ∧ memN slotId (st.roomSched room.id) = false := by
  simp only [findRoom] at h
  obtain ⟨p, hf, hp1⟩ := Option.map_eq_some'.mp h
  have hp := List.find?_some hf
  have hmem : p ∈ insSort (fun a b => decide (a.2 < b.2))
      (rooms.map (fun rm => (rm, (st.roomSched rm.id).length))) :=
    List.mem_of_find?_eq_some hf
  have hmem2 := mem_insSort.mp hmem
  obtain ⟨rm, hrm, hrmeq⟩ := List.mem_map.mp hmem2
  have hfst : p.1 ∈ rooms := by rw [← hrmeq]; exact hrm
  refine ⟨hp1 ▸ hfst, ?_⟩
  rw [← hp1]
  simpa using hp

theorem trySlotMain_sound {S : Settings} {st : St} {slots : List Slot}
    {d : Demand} {sl slot : Slot} {room : Room}
    (h : trySlotMain S st slots d sl = some (slot, room)) :
    slot = sl ∧ memN slot.id (st.facSched d.faculty.id) = false ∧
      memN slot.id (st.secSched d.sec.id) = false ∧
      memN slot.id (st.roomSched room.id) = false ∧
      room ∈ d.availableRooms := by
  unfold trySlotMain at h
  by_cases h1 : memN sl.id (st.facSched d.faculty.id) = true
  · rw [if_pos h1] at h; simp at h
  · rw [if_neg h1] at h
    by_cases h2 : memN sl.id (st.secSched d.sec.id) = true
    · rw [if_pos h2] at h; simp at h
    · rw [if_neg h2] at h
      cases hr : findRoom st d.availableRooms sl.id with
      | none => rw [hr] at h; simp at h
      | some room0 =>
        rw [hr] at h
        simp only at h
        obtain ⟨hrm, hrs⟩ := findRoom_sound hr
        by_cases h3 : (if d.isLab then 3 else 2) ≤
            consecCount S st slots d.sec d.subject sl (if d.isLab then 3 else 2)
        · rw [if_pos h3] at h; simp at h
        · rw [if_neg h3] at h
          by_cases h4 : min 4 (S.periodsPerDay / 2 + 1) ≤ st.secDay d.sec.id sl.day
          · rw [if_pos h4] at h; simp at h
          · rw [if_neg h4] at h
            injection Option.some.inj h with h5 h6
            subst h5; subst h6
            exact ⟨rfl, Bool.not_eq_true _ ▸ h1, Bool.not_eq_true _ ▸ h2, hrs, hrm⟩

theorem tryDays_sound {S : Settings} {st : St} {slots : List Slot}
    {d : Demand} {scores : List (F × Nat)} {slot : Slot} {room : Room}
    (h : tryDays S st slots d scores = some (slot, room)) :
    slot ∈ slots ∧ memN slot.id (st.facSched d.faculty.id) = false ∧
      memN slot.id (st.secSched d.sec.id) = false ∧
      memN slot.id (st.roomSched room.id) = false ∧
      room ∈ d.availableRooms := by
  induction scores with
  | nil => simp [tryDays] at h
  | cons pr rest ih =>
    obtain ⟨sc, day⟩ := pr
    rw [tryDays] at h
    cases hf : firstSome (trySlotMain S st slots d)
        (slotAttempts S (slotsOfDay slots day)) with
    | none => rw [hf] at h; exact ih h
    | some p =>
      rw [hf] at h
      obtain ⟨sl, hsl, htry⟩ := firstSome_eq_some hf
      have hp : p = (slot, room) := Option.some.inj h
      subst hp
      obtain ⟨hseq, hrest⟩ := trySlotMain_sound htry
      have hin : sl ∈ slots := by
        have := mem_insSort.mp hsl
        exact (List.mem_filter.mp this).1
      exact ⟨hseq ▸ hin, hrest.1, hrest.2.1, hrest.2.2.1, hrest.2.2.2⟩

theorem tryFallback_sound {S : Settings} {st : St} {d : Demand}
    {sl slot : Slot} {room : Room}
    (h : tryFallback S st d sl = some (slot, room)) :
    slot = sl ∧ memN slot.id (st.facSched d.faculty.id) = false ∧
      memN slot.id (st.secSched d.sec.id) = false ∧
      memN slot.id (st.roomSched room.id) = false ∧
      room ∈ d.availableRooms := by
  unfold tryFallback at h
  by_cases hc : (!memN sl.id (st.facSched d.faculty.id) &&
      !memN sl.id (st.secSched d.sec.id)) = true
  · rw [if_pos hc] at h
    obtain ⟨hc1, hc2⟩ := Bool.and_eq_true_iff.mp hc
    obtain ⟨rm, hrm, hfrm⟩ := firstSome_eq_some h
    by_cases hr : memN sl.id (st.roomSched rm.id) = true
    · simp [hr] at hfrm
    · rw [Bool.not_eq_true] at hr
      simp only [hr, Bool.not_false, if_true] at hfrm
      by_cases hcap : st.secDay d.sec.id sl.day < S.periodsPerDay
      · rw [if_pos hcap] at hfrm
        injection Option.some.inj hfrm with h1 h2
        subst h1; subst h2
        exact ⟨rfl, by simpa using hc1, by simpa using hc2, hr, hrm⟩
      · rw [if_neg hcap] at hfrm; simp at hfrm
  · rw [if_neg hc] at h; simp at h

theorem selectFallback_sound {S : Settings} {st : St} {slots : List Slot}
    {d : Demand} {slot : Slot} {room : Room}
    (h : selectFallback S st slots d = some (slot, room)) :
    slot ∈ slots ∧ memN slot.id (st.facSched d.faculty.id) = false ∧
      memN slot.id (st.secSched d.sec.id) = false ∧
      memN slot.id (st.roomSched room.id) = false ∧
      room ∈ d.availableRooms := by
  obtain ⟨sl, hsl, hf⟩ := firstSome_eq_some h
  obtain ⟨heq, hrest⟩ := tryFallback_sound hf
  exact ⟨heq ▸ hsl, hrest⟩

theorem pickSlot_sound {c : Catalog} {S : Settings} {slots : List Slot}
    {r : ℕ → F} {st : St} {d : Demand} {slot : Slot} {room : Room}
    (h : (pickSlot c S slots r st d).1 = some (slot, room)) :
    slot ∈ slots ∧ memN slot.id (st.facSched d.faculty.id) = false ∧
      memN slot.id (st.secSched d.sec.id) = false ∧
      memN slot.id (st.roomSched room.id) = false ∧
      room ∈ d.availableRooms := by
  simp only [pickSlot] at h
  cases hm : (selectMain c S slots r st d).1 with
  | some p =>
    rw [hm] at h
    simp only at h
    have hp : p = (slot, room) := Option.some.inj h
    subst hp
    simp only [selectMain] at hm
    exact tryDays_sound hm
  | none =>
    rw [hm] at h
    simp only at h
    exact selectFallback_sound h

/-! ### The pass invariant -/

/-- No shared (slot, faculty), (slot, room) or (slot, section) pair between
two `ScheduledSession` rows. -/
def noConflict (a b : Session) : Prop :=
  (a.slotId = b.slotId → a.facultyId ≠ b.facultyId) ∧
    (a.slotId = b.slotId → a.roomId ≠ b.roomId) ∧
    (a.slotId = b.slotId → a.sectionId ≠ b.sectionId)

instance (a b : Session) : Decidable (noConflict a b) := by
  unfold noConflict; infer_instance

/-- Invariant of the scheduling loop: the occupancy sets and the hour
counters mirror the rows created so far, no created row conflicts with
another, the hour counters respect the clamped limits, and both counters
match the lengths of the produced lists. -/
structure Inv (c : Catalog) (S : Settings) (st : St) : Prop where
  fac : ∀ fid sid, sid ∈ st.facSched fid ↔
    ∃ ss, ss ∈ st.created ∧ ss.facultyId = fid ∧ ss.slotId = sid
  room : ∀ rid sid, sid ∈ st.roomSched rid ↔
    ∃ ss, ss ∈ st.created ∧ ss.roomId = rid ∧ ss.slotId = sid
  sec : ∀ cid sid, sid ∈ st.secSched cid ↔
    ∃ ss, ss ∈ st.created ∧ ss.sectionId = cid ∧ ss.slotId = sid
  hrs : ∀ fid, st.facHours fid =
    (st.created.filter (fun ss => ss.facultyId == fid)).length
  hrsLe : ∀ fid, (st.facHours fid : Int) ≤ limitOf c S fid
  nocf : st.created.Pairwise noConflict
  clen : st.created.length = st.scheduled
  rlen : st.result.length = st.scheduled

theorem initSt_inv (c : Catalog) (S : Settings) (i0 : Nat) :
    Inv c S (initSt i0) := by
  constructor <;> simp [initSt]
  intro fid
  exact le_trans (by norm_num) (one_le_limitOf c S fid)

theorem inv_set_skipped {c : Catalog} {S : Settings} {st : St} (h : Inv c S st)
    (n m : Nat) : Inv c S { st with skipped := n, rix := m } :=
  ⟨h.fac, h.room, h.sec, h.hrs, h.hrsLe, h.nocf, h.clen, h.rlen⟩

theorem inv_set_rix {c : Catalog} {S : Settings} {st : St} (h : Inv c S st)
    (m : Nat) : Inv c S { st with rix := m } :=
  ⟨h.fac, h.room, h.sec, h.hrs, h.hrsLe, h.nocf, h.clen, h.rlen⟩

theorem memN_eq_false {x : Nat} {l : List Nat} : memN x l = false ↔ x ∉ l := by
  rw [← memN_iff]
  cases memN x l <;> simp

theorem commit_facSched (st : St) (d : Demand) (slot : Slot) (room : Room)
    (fid : Nat) : (commit st d slot room).facSched fid =
      if fid = d.faculty.id then slot.id :: st.facSched fid else st.facSched fid := rfl

theorem commit_roomSched (st : St) (d : Demand) (slot : Slot) (room : Room)
    (rid : Nat) : (commit st d slot room).roomSched rid =
      if rid = room.id then slot.id :: st.roomSched rid else st.roomSched rid := rfl

theorem commit_secSched (st : St) (d : Demand) (slot : Slot) (room : Room)
    (cid : Nat) : (commit st d slot room).secSched cid =
      if cid = d.sec.id then slot.id :: st.secSched cid else st.secSched cid := rfl

theorem commit_facHours (st : St) (d : Demand) (slot : Slot) (room : Room)
    (fid : Nat) : (commit st d slot room).facHours fid =
      if fid = d.faculty.id then st.facHours d.faculty.id + 1 else st.facHours fid := rfl

theorem commit_created (st : St) (d : Demand) (slot : Slot) (room : Room) :
    (commit st d slot room).created = st.created ++ [mkSession d slot room] := rfl

theorem commit_result_eq (st : St) (d : Demand) (slot : Slot) (room : Room) :
    (commit st d slot room).result =
      st.result ++ [mkEntry d slot room (st.facHours d.faculty.id + 1)] := rfl

theorem commit_scheduled (st : St) (d : Demand) (slot : Slot) (room : Room) :
    (commit st d slot room).scheduled = st.scheduled + 1 := rfl

/-- Adding one fresh row to the store preserves the set-to-store
correspondence for one of the three occupancy maps. -/
theorem sched_iff_update (proj : Session → Nat) (target : Nat)
    (sched : Nat → List Nat) (created : List Session) (snew : Session)
    (hinv : ∀ k sid, sid ∈ sched k ↔
      ∃ ss, ss ∈ created ∧ proj ss = k ∧ ss.slotId = sid)
    (hproj : proj snew = target) (k sid : Nat) :
    (sid ∈ if k = target then snew.slotId :: sched k else sched k) ↔
      ∃ ss, ss ∈ created ++ [snew] ∧ proj ss = k ∧ ss.slotId = sid := by
  by_cases hk : k = target
  · rw [if_pos hk, List.mem_cons, hinv]
    constructor
    · rintro (rfl | ⟨ss, hss, hp, hs⟩)
      · exact ⟨snew, List.mem_append_right _ (List.mem_singleton.mpr rfl),
          hproj.trans hk.symm, rfl⟩
      · exact ⟨ss, List.mem_append_left _ hss, hp, hs⟩
    · rintro ⟨ss, hss, hp, hs⟩
      rcases List.mem_append.mp hss with hss | hss
      · exact Or.inr ⟨ss, hss, hp, hs⟩
      · rw [List.mem_singleton] at hss; subst hss; exact Or.inl hs.symm
  · rw [if_neg hk, hinv]
    constructor
    · rintro ⟨ss, hss, hp, hs⟩; exact ⟨ss, List.mem_append_left _ hss, hp, hs⟩
    · rintro ⟨ss, hss, hp, hs⟩
      rcases List.mem_append.mp hss with hss | hss
      · exact ⟨ss, hss, hp, hs⟩
      · rw [List.mem_singleton] at hss; subst hss
        exact absurd (hproj ▸ hp).symm hk

theorem commit_inv {c : Catalog} {S : Settings} {st : St} {d : Demand}
    {slot : Slot} {room : Room} (h : Inv c S st)
    (hlt : (st.facHours d.faculty.id : Int) < limitOf c S d.faculty.id)
    (h1 : memN slot.id (st.facSched d.faculty.id) = false)
    (h2 : memN slot.id (st.secSched d.sec.id) = false)
    (h3 : memN slot.id (st.roomSched room.id) = false) :
    Inv c S (commit st d slot room) := by
  have hn1 : slot.id ∉ st.facSched d.faculty.id := memN_eq_false.mp h1
  have hn2 : slot.id ∉ st.secSched d.sec.id := memN_eq_false.mp h2
  have hn3 : slot.id ∉ st.roomSched room.id := memN_eq_false.mp h3
  refine ⟨?_, ?_, ?_, ?_, ?_, ?_, ?_, ?_⟩
  · intro fid sid
    rw [commit_facSched, commit_created]
    exact sched_iff_update Session.facultyId d.faculty.id st.facSched
      st.created (mkSession d slot room) h.fac rfl fid sid
  · intro rid sid
    rw [commit_roomSched, commit_created]
    exact sched_iff_update Session.roomId room.id st.roomSched
      st.created (mkSession d slot room) h.room rfl rid sid
  · intro cid sid
    rw [commit_secSched, commit_created]
    exact sched_iff_update Session.sectionId d.sec.id st.secSched
      st.created (mkSession d slot room) h.sec rfl cid sid
  · intro fid
    rw [commit_facHours, commit_created, List.filter_append, List.length_append]
    by_cases hf : fid = d.faculty.id
    · rw [if_pos hf, hf, h.hrs]
      have hps : ((mkSession d slot room).facultyId == d.faculty.id) = true := by
        simp [mkSession]
      simp [List.filter, hps]
    · rw [if_neg hf, h.hrs]
      have hps : ((mkSession d slot room).facultyId == fid) = false := by
        simp only [mkSession, beq_eq_false_iff_ne, ne_eq]
        exact fun he => hf he.symm
      simp [List.filter, hps]
  · intro fid
    rw [commit_facHours]
    by_cases hf : fid = d.faculty.id
    · rw [if_pos hf, hf]
      push_cast
      omega
    · rw [if_neg hf]
      exact h.hrsLe fid
  · rw [commit_created, List.pairwise_append]
    refine ⟨h.nocf, List.pairwise_singleton _ _, ?_⟩
    intro a ha b hb
    rw [List.mem_singleton] at hb
    subst hb
    refine ⟨?_, ?_, ?_⟩
    · intro hsl hfa
      exact hn1 ((h.fac d.faculty.id slot.id).mpr ⟨a, ha, hfa, hsl⟩)
    · intro hsl hro
      exact hn3 ((h.room room.id slot.id).mpr ⟨a, ha, hro, hsl⟩)
    · intro hsl hse
      exact hn2 ((h.sec d.sec.id slot.id).mpr ⟨a, ha, hse, hsl⟩)
  · rw [commit_created, commit_scheduled, List.length_append,
      List.length_singleton, h.clen]
  · rw [commit_result_eq, commit_scheduled, List.length_append,
      List.length_singleton, h.rlen]

theorem schedLoop_inv {c : Catalog} {S : Settings} {slots : List Slot}
    {r : ℕ → F} (ds : List Demand) (st : St) (h : Inv c S st) :
    Inv c S (schedLoop c S slots r ds st) := by
  induction ds generalizing st with
  | nil => exact h
  | cons d rest ih =>
    rw [schedLoop]
    by_cases hg : limitOf c S d.faculty.id ≤ (st.facHours d.faculty.id : Int)
    · rw [if_pos hg]
      exact ih _ (inv_set_skipped h _ _)
    · rw [if_neg hg]
      simp only
      cases hp : (pickSlot c S slots r st d).1 with
      | some pr =>
        obtain ⟨slot, room⟩ := pr
        obtain ⟨_, hc1, hc2, hc3, _⟩ := pickSlot_sound hp
        exact ih _ (commit_inv (inv_set_rix h _) (lt_of_not_le hg) hc1 hc2 hc3)
      | none =>
        exact ih _ (inv_set_skipped h _ _)

theorem passState_inv (c : Catalog) (S : Settings) (r : ℕ → F) :
    Inv c S (passState c S r) :=
  schedLoop_inv _ _ (initSt_inv c S _)

/-- Every demand of the queue is resolved exactly once, as a commit or as a
skip: the two counters absorb exactly the queue length. -/
theorem schedLoop_counts (c : Catalog) (S : Settings) (slots : List Slot)
    (r : ℕ → F) (ds : List Demand) (st : St) :
    (schedLoop c S slots r ds st).scheduled + (schedLoop c S slots r ds st).skipped =
      st.scheduled + st.skipped + ds.length := by
  induction ds generalizing st with
  | nil => simp [schedLoop]
  | cons d rest ih =>
    rw [schedLoop]
    by_cases hg : limitOf c S d.faculty.id ≤ (st.facHours d.faculty.id : Int)
    · rw [if_pos hg, ih]
      simp only [List.length_cons]
      omega
    · rw [if_neg hg]
      simp only
      cases hp : (pickSlot c S slots r st d).1 with
      | some pr =>
        obtain ⟨slot, room⟩ := pr
        rw [ih]
        simp only [commit_scheduled, List.length_cons]
        have hsk : (commit { st with rix := (pickSlot c S slots r st d).2 } d slot room).skipped
            = st.skipped := rfl
        rw [hsk]
        omega
      | none =>
        rw [ih]
        simp only [List.length_cons]
        omega

/-- Provenance of the created rows: every row the loop adds comes from a
demand of the queue, with a room drawn from that demand's eligible rooms. -/
theorem schedLoop_created_prov (c : Catalog) (S : Settings) (slots : List Slot)
    (r : ℕ → F) (ds : List Demand) (st : St) :
    ∀ ss ∈ (schedLoop c S slots r ds st).created,
      ss ∈ st.created ∨ ∃ d ∈ ds, ∃ slot room, room ∈ d.availableRooms ∧
        slot ∈ slots ∧ ss = mkSession d slot room := by
  induction ds generalizing st with
  | nil => intro ss hss; exact Or.inl hss
  | cons d rest ih =>
    intro ss hss
    rw [schedLoop] at hss
    by_cases hg : limitOf c S d.faculty.id ≤ (st.facHours d.faculty.id : Int)
    · rw [if_pos hg] at hss
      rcases ih _ ss hss with hin | ⟨d', hd', w⟩
      · exact Or.inl hin
      · exact Or.inr ⟨d', List.mem_cons_of_mem _ hd', w⟩
    · rw [if_neg hg] at hss
      simp only at hss
      cases hp : (pickSlot c S slots r st d).1 with
      | some pr =>
        obtain ⟨slot, room⟩ := pr
        rw [hp] at hss
        simp only at hss
        obtain ⟨hsl, _, _, _, hrm⟩ := pickSlot_sound hp
        rcases ih _ ss hss with hin | ⟨d', hd', w⟩
        · rw [commit_created, List.mem_append] at hin
          rcases hin with hin | hin
          · exact Or.inl hin
          · rw [List.mem_singleton] at hin
            exact Or.inr ⟨d, List.mem_cons_self d rest, slot, room, hrm, hsl, hin⟩
        · exact Or.inr ⟨d', List.mem_cons_of_mem _ hd', w⟩
      | none =>
        rw [hp] at hss
        simp only at hss
        rcases ih _ ss hss with hin | ⟨d', hd', w⟩
        · exact Or.inl hin
        · exact Or.inr ⟨d', List.mem_cons_of_mem _ hd', w⟩

/-- Once the three prerequisite checks pass, the run of
`generate_timetable` depends only on the pass state: the previous store
content is gone. -/
theorem gen_checksPass (c : Catalog) (db : List Session) (r : ℕ → F)
    (S : Settings) (hS : c.settings = some S) (hsec : c.sections ≠ [])
    (hslots : c.slots ≠ []) :
    generateTimetable c db r =
      (if (passState c S r).scheduled = 0 then
        (Except.error
          "No sessions could be scheduled. Please check faculty hour limits and room availability.",
          (passState c S r).created)
      else (Except.ok (okOutput c S r), (passState c S r).created)) := by
  have hslots2 : insSort slotLt c.slots ≠ [] := fun he =>
    hslots (insSort_eq_nil_iff.mp he)
  unfold generateTimetable
  rw [hS]
  simp only [if_neg hsec, if_neg hslots2]

/-! ### Facts about the Demand Builder and the sorted queue -/

theorem sortedDemands_perm (c : Catalog) (S : Settings) (r : ℕ → F) :
    List.Perm (sortedDemands c S r).1 (buildDemandsAll c S).1 := by
  unfold sortedDemands
  simp only
  have hp := (insSort_perm (fun a b : SKey × Demand => skeyLt a.1 b.1)
    (mkKeys c S (initSt 0) r (buildDemandsAll c S).1 0).1).map Prod.snd
  rwa [mkKeys_map_snd] at hp

theorem sortedDemands_length (c : Catalog) (S : Settings) (r : ℕ → F) :
    (sortedDemands c S r).1.length = (buildDemandsAll c S).1.length :=
  (sortedDemands_perm c S r).length_eq

theorem mem_sortedDemands {c : Catalog} {S : Settings} {r : ℕ → F} {d : Demand} :
    d ∈ (sortedDemands c S r).1 ↔ d ∈ (buildDemandsAll c S).1 :=
  (sortedDemands_perm c S r).mem_iff

/-- Every demand emitted for one allocation carries the allocation's
subject, that subject's eligible room list, and its lab flag. -/
theorem processAllocation_shape {c : Catalog} {S : Settings} {sbf : Nat → Int}
    {sec : SectionR} {subj : Subject} {alloc : Allocation} :
    ∀ d ∈ (processAllocation c S sbf sec subj alloc).1,
      d.subject = subj ∧
        d.availableRooms = availableRoomsFor c.rooms subj.labRequired ∧
        d.isLab = subj.labRequired := by
  intro d hd
  unfold processAllocation at hd
  by_cases hb1 : alloc.hoursPerWeek ≤ 0
  · rw [if_pos hb1] at hd; simp at hd
  · rw [if_neg hb1] at hd
    simp only at hd
    by_cases hb2 : limitOf c S (findFaculty c alloc.facultyId).id -
        sbf (findFaculty c alloc.facultyId).id ≤ 0
    · rw [if_pos hb2] at hd; simp at hd
    · rw [if_neg hb2] at hd
      by_cases hb3 : (availableRoomsFor c.rooms subj.labRequired).isEmpty = true
      · rw [if_pos hb3] at hd; simp at hd
      · rw [if_neg hb3] at hd
        simp only at hd
        obtain ⟨n, _, hn⟩ := List.mem_map.mp hd
        rw [← hn]
        exact ⟨rfl, rfl, rfl⟩

theorem buildAllocs_shape {c : Catalog} {S : Settings} {sec : SectionR}
    {subj : Subject} (as : List Allocation) (sbf : Nat → Int) :
    ∀ d ∈ (buildAllocs c S sec subj as sbf).1,
      d.subject = subj ∧
        d.availableRooms = availableRoomsFor c.rooms subj.labRequired ∧
        d.isLab = subj.labRequired := by
  induction as generalizing sbf with
  | nil => intro d hd; simp [buildAllocs] at hd
  | cons a rest ih =>
    intro d hd
    rw [buildAllocs] at hd
    simp only [List.mem_append] at hd
    rcases hd with hd | hd
    · exact processAllocation_shape d hd
    · exact ih _ d hd

theorem buildSubjects_shape {c : Catalog} {S : Settings} {sec : SectionR}
    (subjs : List Subject) (sbf : Nat → Int) :
    ∀ d ∈ (buildSubjects c S sec subjs sbf).1,
      d.subject ∈ subjs ∧
        d.availableRooms = availableRoomsFor c.rooms d.subject.labRequired ∧
        d.isLab = d.subject.labRequired := by
  induction subjs generalizing sbf with
  | nil => intro d hd; simp [buildSubjects] at hd
  | cons subj rest ih =>
    intro d hd
    rw [buildSubjects] at hd
    simp only [List.mem_append] at hd
    rcases hd with hd | hd
    · obtain ⟨h1, h2, h3⟩ := buildAllocs_shape _ _ d hd
      exact ⟨h1 ▸ List.mem_cons_self subj rest, h1 ▸ h2, h1 ▸ h3⟩
    · obtain ⟨h1, h2, h3⟩ := ih _ d hd
      exact ⟨List.mem_cons_of_mem _ h1, h2, h3⟩

theorem buildSections_shape {c : Catalog} {S : Settings}
    (secs : List SectionR) (sbf : Nat → Int) :
    ∀ d ∈ (buildSections c S secs sbf).1,
      d.subject ∈ c.subjects ∧
        d.availableRooms = availableRoomsFor c.rooms d.subject.labRequired ∧
        d.isLab = d.subject.labRequired := by
  induction secs generalizing sbf with
  | nil => intro d hd; simp [buildSections] at hd
  | cons sec rest ih =>
    intro d hd
    rw [buildSections] at hd
    simp only [List.mem_append] at hd
    rcases hd with hd | hd
    · obtain ⟨h1, h2, h3⟩ := buildSubjects_shape _ _ d hd
      exact ⟨(List.mem_filter.mp h1).1, h2, h3⟩
    · exact ih _ d hd

theorem buildDemandsAll_shape {c : Catalog} {S : Settings} :
    ∀ d ∈ (buildDemandsAll c S).1,
      d.subject ∈ c.subjects ∧
        d.availableRooms = availableRoomsFor c.rooms d.subject.labRequired ∧
        d.isLab = d.subject.labRequired :=
  buildSections_shape c.sections _

/-- With an empty room table every allocation is dropped at the room check
(line 113-115), so the whole queue is empty. -/
theorem processAllocation_nil_of_rooms_nil {c : Catalog} {S : Settings}
    {sbf : Nat → Int} {sec : SectionR} {subj : Subject} {alloc : Allocation}
    (h : c.rooms = []) : (processAllocation c S sbf sec subj alloc).1 = [] := by
  have hav : availableRoomsFor c.rooms subj.labRequired = [] := by
    rw [h]; unfold availableRoomsFor
    cases subj.labRequired <;> simp
  unfold processAllocation
  by_cases hb1 : alloc.hoursPerWeek ≤ 0
  · rw [if_pos hb1]
  · rw [if_neg hb1]
    simp only
    by_cases hb2 : limitOf c S (findFaculty c alloc.facultyId).id -
        sbf (findFaculty c alloc.facultyId).id ≤ 0
    · rw [if_pos hb2]
    · rw [if_neg hb2]
      simp only [hav]
      rfl

theorem buildAllocs_nil_of_rooms_nil {c : Catalog} {S : Settings}
    {sec : SectionR} {subj : Subject} (h : c.rooms = [])
    (as : List Allocation) (sbf : Nat → Int) :
    (buildAllocs c S sec subj as sbf).1 = [] := by
  induction as generalizing sbf with
  | nil => rfl
  | cons a rest ih =>
    rw [buildAllocs]
    simp only [processAllocation_nil_of_rooms_nil h, ih, List.nil_append]

theorem buildSubjects_nil_of_rooms_nil {c : Catalog} {S : Settings}
    {sec : SectionR} (h : c.rooms = [])
    (subjs : List Subject) (sbf : Nat → Int) :
    (buildSubjects c S sec subjs sbf).1 = [] := by
  induction subjs generalizing sbf with
  | nil => rfl
  | cons subj rest ih =>
    rw [buildSubjects]
    simp only [buildAllocs_nil_of_rooms_nil h, ih, List.nil_append]

theorem buildDemandsAll_nil_of_rooms_nil {c : Catalog} {S : Settings}
    (h : c.rooms = []) : (buildDemandsAll c S).1 = [] := by
  unfold buildDemandsAll
  generalize (fun _ : Nat => (0 : Int)) = sbf
  induction c.sections generalizing sbf with
  | nil => rfl
  | cons sec rest ih =>
    rw [buildSections]
    simp only [buildSubjects_nil_of_rooms_nil h, ih, List.nil_append]

/-- The lookup of `faculty_limits.get(faculty.id, 18)` resolves to the
clamped limit of the faculty row itself when faculty ids are unique. -/
theorem limitOf_eq_of_mem {c : Catalog} {S : Settings} {f : Faculty}
    (hf : f ∈ c.faculties) (hn : (c.faculties.map Faculty.id).Nodup) :
    limitOf c S f.id =
      max 1 (min f.maxHoursPerWeek ((S.workingDays * S.periodsPerDay : Nat) : Int)) := by
  unfold limitOf
  have hfr : f ∈ c.faculties.reverse := List.mem_reverse.mpr hf
  have hpred : (fun g : Faculty => g.id == f.id) f = true := by simp
  have hsome : ∃ g, c.faculties.reverse.find? (fun g => g.id == f.id) = some g :=
    Option.isSome_iff_exists.mp (List.find?_isSome.mpr ⟨f, hfr, hpred⟩)
  obtain ⟨g, hg⟩ := hsome
  have hgid : g.id = f.id := by
    have := List.find?_some hg
    simpa using this
  have hgmem : g ∈ c.faculties := List.mem_reverse.mp (List.mem_of_find?_eq_some hg)
  have hgf : g = f := List.inj_on_of_nodup_map hn hgmem hf hgid
  rw [hg, hgf]

theorem limitOf_le_maxHours {c : Catalog} {S : Settings} {f : Faculty}
    (hf : f ∈ c.faculties) (hn : (c.faculties.map Faculty.id).Nodup)
    (h1 : 1 ≤ f.maxHoursPerWeek) : limitOf c S f.id ≤ f.maxHoursPerWeek := by
  rw [limitOf_eq_of_mem hf hn]
  omega

/-! ### Consecutive windows and room typing -/

/-- The period number of the slot a stored row points at. -/
def periodOfSlot (c : Catalog) (ss : Session) : Nat :=
  ((c.slots.find? (fun sl => sl.id == ss.slotId)).map Slot.periodNumber).getD 0

/-- Number of stored rows of one (section, subject) that sit on `day` in a
window of `width` consecutive periods starting at `w`. -/
def windowCount (c : Catalog) (db : List Session)
    (secId subjId day w width : Nat) : Nat :=
  (db.filter (fun ss => ss.sectionId == secId && ss.subjectId == subjId &&
    c.slots.any (fun sl => sl.id == ss.slotId && sl.day == day &&
      decide (w ≤ sl.periodNumber) && decide (sl.periodNumber < w + width)))).length

theorem windowCount_le {c : Catalog} {db : List Session}
    (hnc : db.Pairwise noConflict)
    (hids : (c.slots.map Slot.id).Nodup)
    (hgrid : ∀ s1 ∈ c.slots, ∀ s2 ∈ c.slots, s1.day = s2.day →
      s1.periodNumber = s2.periodNumber → s1 = s2)
    (secId subjId day w width : Nat) :
    windowCount c db secId subjId day w width ≤ width := by
  unfold windowCount
  set p : Session → Bool := fun ss =>
    ss.sectionId == secId && ss.subjectId == subjId &&
      c.slots.any (fun sl => sl.id == ss.slotId && sl.day == day &&
        decide (w ≤ sl.periodNumber) && decide (sl.periodNumber < w + width))
    with hp
  set fl := db.filter p with hfl
  have hnc2 : fl.Pairwise noConflict := hnc.sublist (List.filter_sublist db)
  have hchar : ∀ ss ∈ fl, ss.sectionId = secId ∧
      ∃ sl, sl ∈ c.slots ∧ sl.id = ss.slotId ∧ sl.day = day ∧
        w ≤ sl.periodNumber ∧ sl.periodNumber < w + width ∧
        periodOfSlot c ss = sl.periodNumber := by
    intro ss hss
    have hpred : p ss = true := (List.mem_filter.mp hss).2
    rw [hp] at hpred
    simp only [Bool.and_eq_true, beq_iff_eq, List.any_eq_true,
      decide_eq_true_eq] at hpred
    obtain ⟨⟨hsec, _⟩, sl, hslmem, ⟨⟨hid, hday⟩, hw1⟩, hw2⟩ := hpred
    refine ⟨hsec, sl, hslmem, hid, hday, hw1, hw2, ?_⟩
    unfold periodOfSlot
    have hfind : (c.slots.find? (fun sl2 => sl2.id == ss.slotId)).isSome := by
      rw [List.find?_isSome]
      exact ⟨sl, hslmem, by simp [hid]⟩
    obtain ⟨g, hg⟩ := Option.isSome_iff_exists.mp hfind
    have hgid : g.id = ss.slotId := by
      have := List.find?_some hg
      simpa using this
    have hgmem : g ∈ c.slots := List.mem_of_find?_eq_some hg
    have : g = sl := List.inj_on_of_nodup_map hids hgmem hslmem (hgid.trans hid.symm)
    rw [hg, this]
    rfl
  have hnodup : (fl.map (periodOfSlot c)).Nodup := by
    have hpw : fl.Pairwise (fun a b => periodOfSlot c a ≠ periodOfSlot c b) := by
      refine hnc2.imp_of_mem ?_
      intro a b ha hb hab
      obtain ⟨hsa, sla, hma, hia, hda, _, _, hpa⟩ := hchar a ha
      obtain ⟨hsb, slb, hmb, hib, hdb, _, _, hpb⟩ := hchar b hb
      intro hper
      have hslot_ne : a.slotId ≠ b.slotId := by
        intro hsl
        exact hab.2.2 hsl (hsa.trans hsb.symm)
      rw [hpa, hpb] at hper
      have : sla = slb := hgrid sla hma slb hmb (hda.trans hdb.symm) hper
      exact hslot_ne (hia.symm.trans (this ▸ hib))
    exact List.pairwise_map.mpr hpw
  have hmemI : ∀ x ∈ fl.map (periodOfSlot c), x ∈ Finset.Ico w (w + width) := by
    intro x hx
    obtain ⟨ss, hss, hxe⟩ := List.mem_map.mp hx
    obtain ⟨_, sl, _, _, _, h1, h2, hpe⟩ := hchar ss hss
    rw [← hxe, hpe]
    exact Finset.mem_Ico.mpr ⟨h1, h2⟩
  have hlen : fl.length = (fl.map (periodOfSlot c)).length :=
    (List.length_map _ _).symm
  rw [hlen]
  calc (fl.map (periodOfSlot c)).length
      = (fl.map (periodOfSlot c)).toFinset.card :=
        (List.toFinset_card_of_nodup hnodup).symm
    _ ≤ (Finset.Ico w (w + width)).card :=
        Finset.card_le_card (fun x hx => hmemI x (List.mem_toFinset.mp hx))
    _ = width := by simp

theorem gen_snd (c : Catalog) (db : List Session) (r : ℕ → F) (S : Settings)
    (hS : c.settings = some S) (hsec : c.sections ≠ []) (hslots : c.slots ≠ []) :
    (generateTimetable c db r).2 = (passState c S r).created := by
  rw [gen_checksPass c db r S hS hsec hslots]
  by_cases h : (passState c S r).scheduled = 0
  · rw [if_pos h]
  · rw [if_neg h]

theorem filter_self_of_opp_nil {l : List Room} {p : Room → Bool}
    (h : l.filter (fun x => !p x) = []) : l.filter p = l := by
  rw [List.filter_eq_self]
  intro a ha
  have := List.filter_eq_nil_iff.mp h a ha
  simpa using this

/-- When the required room type is absent, the eligible room list is
exactly the rooms of the opposite type. -/
theorem availableRoomsFor_opp {rooms : List Room} {labReq : Bool}
    (hreq : rooms.filter (fun rm => rm.isLab == labReq) = []) :
    availableRoomsFor rooms labReq =
      rooms.filter (fun rm => rm.isLab == !labReq) := by
  cases labReq with
  | true =>
    have h1 : rooms.filter (fun rm => rm.isLab) = [] := by
      rw [← hreq]
      apply List.filter_congr
      intro rm _
      simp
    have h2 : rooms.filter (fun rm => rm.isLab == !true) =
        rooms.filter (fun rm => !rm.isLab) := by
      apply List.filter_congr
      intro rm _
      cases rm.isLab <;> rfl
    rw [h2]
    simp [availableRoomsFor, h1]
  | false =>
    have h1 : rooms.filter (fun rm => !rm.isLab) = [] := by
      rw [← hreq]
      apply List.filter_congr
      intro rm _
      cases rm.isLab <;> rfl
    have h2 : rooms.filter (fun rm => rm.isLab == !false) =
        rooms.filter (fun rm => rm.isLab) := by
      apply List.filter_congr
      intro rm _
      cases rm.isLab <;> rfl
    rw [h2, filter_self_of_opp_nil h1]
    simp [availableRoomsFor, h1]

theorem mem_availableRoomsFor_opp {rooms : List Room} {labReq : Bool}
    (hreq : rooms.filter (fun rm => rm.isLab == labReq) = []) :
    ∀ rm ∈ availableRoomsFor rooms labReq, rm.isLab = !labReq := by
  rw [availableRoomsFor_opp hreq]
  intro rm hrm
  have := (List.mem_filter.mp hrm).2
  simpa using this

/-! ### Concrete catalogs used by the witnesses and counterexamples -/

/-- One section, one theory subject, one faculty allocated 2 hours, one
regular room, a 2-day × 2-period grid. -/
def demoCat : Catalog :=
  { sections := [⟨1, 1, "A"⟩],
    subjects := [⟨1, 1, "Math", 3, false⟩],
    faculties := [⟨1, "F1", 18⟩],
    allocations := [⟨1, 1, 1, 2⟩],
    rooms := [⟨1, "R101", false⟩],
    slots := [⟨1, 1, 1⟩, ⟨2, 1, 2⟩, ⟨3, 2, 1⟩, ⟨4, 2, 2⟩],
    settings := some ⟨2, 2⟩ }

/-- The all-zero random stream. -/
def rz : ℕ → F := fun _ => 0

/-! ### The claims -/

/-- C1: over the entire set of `ScheduledSession` rows produced by one call
to `generate_timetable` — rows placed by the main slot selector and by the
fallback resolver alike — no two rows share the same (slot, faculty) pair,
no two share the same (slot, room) pair, and no two share the same
(slot, section) pair. -/
theorem claim1_no_shared_slot_pairs (c : Catalog) (db : List Session)
    (r : ℕ → F) (S : Settings) (hS : c.settings = some S)
    (hsec : c.sections ≠ []) (hslots : c.slots ≠ []) :
    ((generateTimetable c db r).2).Pairwise noConflict := by
  rw [gen_snd c db r S hS hsec hslots]
  exact (passState_inv c S r).nocf

theorem claim1_witness :
    ((generateTimetable demoCat [] rz).2).Pairwise noConflict :=
  claim1_no_shared_slot_pairs demoCat [] rz ⟨2, 2⟩ rfl (by decide) (by decide)

/-- C2: for every faculty member of the catalog (faculty ids unique, weekly
limit at least 1 as the `Faculty.clean` validator of `models.py`
guarantees), the number of one-period sessions scheduled for that faculty
by one `generate_timetable` pass is at most the faculty's
`max_hours_per_week`. -/
theorem claim2_faculty_weekly_cap (c : Catalog) (db : List Session)
    (r : ℕ → F) (S : Settings) (f : Faculty) (hS : c.settings = some S)
    (hsec : c.sections ≠ []) (hslots : c.slots ≠ [])
    (hf : f ∈ c.faculties) (hids : (c.faculties.map Faculty.id).Nodup)
    (h1 : 1 ≤ f.maxHoursPerWeek) :
    (((generateTimetable c db r).2.filter
        (fun ss => ss.facultyId == f.id)).length : Int) ≤ f.maxHoursPerWeek := by
  rw [gen_snd c db r S hS hsec hslots]
  have hinv := passState_inv c S r
  rw [← hinv.hrs f.id]
  exact le_trans (hinv.hrsLe f.id) (limitOf_le_maxHours hf hids h1)

theorem claim2_witness :
    (((generateTimetable demoCat [] rz).2.filter
        (fun ss => ss.facultyId == (1 : Nat))).length : Int) ≤ 18 :=
  claim2_faculty_weekly_cap demoCat [] rz ⟨2, 2⟩ ⟨1, "F1", 18⟩ rfl
    (by decide) (by decide) (by decide) (by decide) (by decide)

/-- Catalog whose only flaw is an empty room table: settings, one section,
one subject with an allocation, and one slot are all present. -/
def c3cat : Catalog :=
  { sections := [⟨1, 1, "A"⟩],
    subjects := [⟨1, 1, "Math", 3, false⟩],
    faculties := [⟨1, "F1", 18⟩],
    allocations := [⟨1, 1, 1, 2⟩],
    rooms := [],
    slots := [⟨1, 1, 1⟩],
    settings := some ⟨1, 1⟩ }

/-- A non-empty previously stored schedule. -/
def db3 : List Session := [⟨9, 9, 9, 9, 9, false⟩]

/-- C3 counterexample: with zero rooms (and all other prerequisites
present) the pass raises the zero-result error, yet the previously stored
`ScheduledSession` row has already been deleted — the store ends empty, so
the error is not raised before the delete as the claim states.  There is
no dedicated room prerequisite check at all. -/
theorem claim3_counterexample :
    db3 ≠ [] ∧
    (generateTimetable c3cat db3 rz).1 =
      Except.error
        "No sessions could be scheduled. Please check faculty hour limits and room availability." ∧
    (generateTimetable c3cat db3 rz).2 = [] :=
  ⟨by decide, rfl, by decide⟩

/-- C3 amended: the three checked prerequisites (settings, sections, slots)
abort the pass before the delete, leaving the store untouched; an empty
room table is *not* checked up front — the pass still starts, deletes the
previous schedule, builds an empty demand queue, and only then raises the
zero-result error with the store left empty. -/
theorem claim3_amended (c : Catalog) (db : List Session) (r : ℕ → F) :
    (c.settings = none →
      generateTimetable c db r = (Except.error "No institution settings found", db)) ∧
    (∀ S, c.settings = some S → c.sections = [] →
      generateTimetable c db r = (Except.error "No sections found", db)) ∧
    (∀ S, c.settings = some S → c.sections ≠ [] → c.slots = [] →
      generateTimetable c db r = (Except.error "No time slots found", db)) ∧
    (∀ S, c.settings = some S → c.sections ≠ [] → c.slots ≠ [] → c.rooms = [] →
      (∃ e, (generateTimetable c db r).1 = Except.error e) ∧
      (generateTimetable c db r).2 = []) := by
  refine ⟨?_, ?_, ?_, ?_⟩
  · intro h
    unfold generateTimetable
    rw [h]
  · intro S hS hsec
    unfold generateTimetable
    rw [hS]
    simp [if_pos hsec]
  · intro S hS hsec hslots
    unfold generateTimetable
    rw [hS]
    have h2 : insSort slotLt c.slots = [] := by rw [hslots]; rfl
    simp [if_neg hsec, h2]
  · intro S hS hsec hslots hrooms
    have hd : (buildDemandsAll c S).1 = [] := buildDemandsAll_nil_of_rooms_nil hrooms
    have hsd : sortedDemands c S r = ([], 0) := by
      unfold sortedDemands
      rw [hd]
      rfl
    have hps : passState c S r = initSt 0 := by
      unfold passState
      rw [hsd]
      rfl
    rw [gen_checksPass c db r S hS hsec hslots, hps]
    exact ⟨⟨_, rfl⟩, rfl⟩

theorem claim3_witness :
    (∃ e, (generateTimetable c3cat db3 rz).1 = Except.error e) ∧
    (generateTimetable c3cat db3 rz).2 = [] :=
  (claim3_amended c3cat db3 rz).2.2.2 ⟨1, 1⟩ rfl (by decide) (by decide) rfl

/-- Two-day, one-period grid in which the day-score jitter decides the day
of the single session. -/
def c4cat : Catalog :=
  { sections := [⟨1, 1, "A"⟩],
    subjects := [⟨1, 1, "Math", 3, false⟩],
    faculties := [⟨1, "F1", 18⟩],
    allocations := [⟨1, 1, 1, 1⟩],
    rooms := [⟨1, "R101", false⟩],
    slots := [⟨1, 1, 1⟩, ⟨2, 2, 1⟩],
    settings := some ⟨2, 1⟩ }

/-- Random stream favouring day 1 (the draw at position 2 is the day-2
jitter). -/
def rA : ℕ → F := fun n => if n == 2 then ⟨1, 10⟩ else ⟨0, 1⟩

/-- Random stream favouring day 2 (the draw at position 1 is the day-1
jitter). -/
def rB : ℕ → F := fun n => if n == 1 then ⟨1, 10⟩ else ⟨0, 1⟩

/-- The timetable list of a result (empty on the error branch). -/
def timetableOf (res : Except String Output) : List Entry :=
  match res with
  | .ok o => o.timetable
  | .error _ => []

/-- C4 counterexample: `generate_timetable` takes no seed — its random
values come from the process-global `random` module.  Two invocations on
the same catalog under different global generator states return different
timetables and store different sessions, so the output is not a function
of the catalog (plus a caller-supplied seed) alone. -/
theorem claim4_counterexample :
    timetableOf (generateTimetable c4cat [] rA).1 ≠
      timetableOf (generateTimetable c4cat [] rB).1 ∧
    (generateTimetable c4cat [] rA).2 ≠ (generateTimetable c4cat [] rB).2 := by
  exact ⟨by decide, by decide⟩

/-- C4 amended: reproducibility holds only relative to the global random
state: if the global generator is brought to the same state before each
run (so both runs consume the same value stream), two runs on the same
catalog return byte-identical output; the engine itself offers no seed
parameter. -/
theorem claim4_amended (c : Catalog) (db : List Session) (r1 r2 : ℕ → F)
    (h : ∀ n, r1 n = r2 n) :
    generateTimetable c db r1 = generateTimetable c db r2 := by
  rw [funext h]

theorem claim4_witness :
    generateTimetable c4cat [] rA = generateTimetable c4cat [] (fun n => rA n) :=
  claim4_amended c4cat [] rA (fun n => rA n) (fun _ => rfl)

/-- C9: once the settings, sections and slots checks pass, the run no
longer depends on the previously stored schedule in any way (it was
deleted before demand building), and on the zero-result error path the
store is left empty — the prior schedule is destroyed, not preserved. -/
theorem claim9_delete_then_error (c : Catalog) (db db2 : List Session)
    (r : ℕ → F) (S : Settings) (hS : c.settings = some S)
    (hsec : c.sections ≠ []) (hslots : c.slots ≠ []) :
    generateTimetable c db r = generateTimetable c db2 r ∧
    ((∃ e, (generateTimetable c db r).1 = Except.error e) →
      (generateTimetable c db r).2 = []) := by
  constructor
  · rw [gen_checksPass c db r S hS hsec hslots,
      gen_checksPass c db2 r S hS hsec hslots]
  · rintro ⟨e, he⟩
    rw [gen_snd c db r S hS hsec hslots]
    rw [gen_checksPass c db r S hS hsec hslots] at he
    by_cases h0 : (passState c S r).scheduled = 0
    · have hinv := passState_inv c S r
      have : (passState c S r).created.length = 0 := by rw [hinv.clen, h0]
      exact List.eq_nil_of_length_eq_zero this
    · rw [if_neg h0] at he
      exact absurd he (by simp)

theorem claim9_witness :
    generateTimetable c3cat db3 rz = generateTimetable c3cat [] rz :=
  (claim9_delete_then_error c3cat db3 [] rz ⟨1, 1⟩ rfl (by decide) (by decide)).1

/-- C5: over the entire output of one pass (fallback placements included),
for every (section, subject) pair and every day, the number of scheduled
periods inside any window of `consecutiveLimit` consecutive periods never
exceeds `consecutiveLimit`, with `consecutiveLimit = 3` for lab subjects
and `2` for theory subjects.  The catalog hypotheses are the data-model
assumptions of the slot grid: unique slot primary keys and at most one
slot per (day, period) coordinate. -/
theorem claim5_consecutive_window_cap (c : Catalog) (db : List Session)
    (r : ℕ → F) (S : Settings) (subj : Subject)
    (hS : c.settings = some S) (hsec : c.sections ≠ []) (hslots : c.slots ≠ [])
    (hids : (c.slots.map Slot.id).Nodup)
    (hgrid : ∀ s1 ∈ c.slots, ∀ s2 ∈ c.slots, s1.day = s2.day →
      s1.periodNumber = s2.periodNumber → s1 = s2)
    (secId day w : Nat) :
    windowCount c ((generateTimetable c db r).2) secId subj.id day w
        (if subj.labRequired then 3 else 2) ≤
      (if subj.labRequired then 3 else 2) := by
  rw [gen_snd c db r S hS hsec hslots]
  exact windowCount_le (passState_inv c S r).nocf hids hgrid _ _ _ _ _

theorem claim5_witness :
    windowCount demoCat ((generateTimetable demoCat [] rz).2) 1 1 1 1 2 ≤ 2 :=
  claim5_consecutive_window_cap demoCat [] rz ⟨2, 2⟩ ⟨1, 1, "Math", 3, false⟩
    rfl (by decide) (by decide) (by decide) (by decide) 1 1 1

/-- C6: when the checked prerequisites (settings, sections, slots) are
present so the pass runs, `generate_timetable` raises the terminal failure
exactly when the pass scheduled zero sessions; in every other case it
returns the success payload with the schedule, statistics and warning
lists. -/
theorem claim6_error_iff_zero_scheduled (c : Catalog) (db : List Session)
    (r : ℕ → F) (S : Settings) (hS : c.settings = some S)
    (hsec : c.sections ≠ []) (hslots : c.slots ≠ []) :
    ((∃ e, (generateTimetable c db r).1 = Except.error e) ↔
      (generateTimetable c db r).2 = []) ∧
    ((generateTimetable c db r).2 ≠ [] →
      (generateTimetable c db r).1 = Except.ok (okOutput c S r)) := by
  have hsnd := gen_snd c db r S hS hsec hslots
  have hrun := gen_checksPass c db r S hS hsec hslots
  have hinv := passState_inv c S r
  by_cases h0 : (passState c S r).scheduled = 0
  · rw [if_pos h0] at hrun
    have hnil : (passState c S r).created = [] :=
      List.eq_nil_of_length_eq_zero (by rw [hinv.clen, h0])
    constructor
    · constructor
      · intro _
        rw [hsnd, hnil]
      · intro _
        exact ⟨_, by rw [hrun]⟩
    · intro hne
      exact absurd (hsnd.trans hnil) hne
  · rw [if_neg h0] at hrun
    constructor
    · constructor
      · rintro ⟨e, he⟩
        rw [hrun] at he
        exact absurd he (by simp)
      · intro hnil
        rw [hsnd] at hnil
        have hz : (passState c S r).created.length = 0 := by rw [hnil]; rfl
        rw [hinv.clen] at hz
        exact absurd hz h0
    · intro _
      rw [hrun]

theorem claim6_witness :
    (generateTimetable demoCat [] rz).1 =
      Except.ok (okOutput demoCat ⟨2, 2⟩ rz) :=
  (claim6_error_iff_zero_scheduled demoCat [] rz ⟨2, 2⟩ rfl (by decide)
    (by decide)).2 (by decide)

/-- An allocation with 2 positive hours, ample faculty capacity, 6 periods
per day — and no rooms at all. -/
def c7cat : Catalog :=
  { sections := [⟨1, 1, "A"⟩],
    subjects := [⟨1, 1, "Math", 3, false⟩],
    faculties := [⟨1, "F1", 18⟩],
    allocations := [⟨1, 1, 1, 2⟩],
    rooms := [],
    slots := [⟨1, 1, 1⟩],
    settings := some ⟨5, 6⟩ }

/-- C7 counterexample: an allocation with `hoursPerWeek = 2 > 0` and
remaining faculty capacity `> 0` should, per the claim, emit exactly
`min(hoursPerWeek, periodsPerDay, remaining) = 2 ≥ 1` demand units — but
with an empty room table the allocation is dropped at the room check and
emits none. -/
theorem claim7_counterexample :
    (processAllocation c7cat ⟨5, 6⟩ (fun _ => 0) ⟨1, 1, "A"⟩
        ⟨1, 1, "Math", 3, false⟩ ⟨1, 1, 1, 2⟩).1.length = 0 ∧
    0 < (⟨1, 1, 1, 2⟩ : Allocation).hoursPerWeek ∧
    0 < limitOf c7cat ⟨5, 6⟩ 1 - 0 ∧
    min (min (⟨1, 1, 1, 2⟩ : Allocation).hoursPerWeek ((6 : Nat) : Int))
        (limitOf c7cat ⟨5, 6⟩ 1 - 0) = 2 :=
  ⟨by decide, by decide, by decide, by decide⟩

/-- C7 amended: an allocation with `hoursPerWeek ≤ 0` or no remaining
faculty capacity is skipped with no demand units and no commitment; an
allocation with positive hours and remaining capacity emits exactly
`min(hoursPerWeek, periodsPerDay, remaining)` units (at least 1 when
`periodsPerDay ≥ 1`) *provided at least one room of any type exists*; when
no room exists at all the allocation emits no units, although its hours
are still charged against the faculty's remaining capacity. -/
theorem claim7_amended (c : Catalog) (S : Settings) (sbf : Nat → Int)
    (sec : SectionR) (subj : Subject) (alloc : Allocation) :
    (alloc.hoursPerWeek ≤ 0 →
      processAllocation c S sbf sec subj alloc = ([], sbf)) ∧
    (limitOf c S (findFaculty c alloc.facultyId).id -
        sbf (findFaculty c alloc.facultyId).id ≤ 0 →
      0 < alloc.hoursPerWeek →
      processAllocation c S sbf sec subj alloc = ([], sbf)) ∧
    (0 < alloc.hoursPerWeek →
      0 < limitOf c S (findFaculty c alloc.facultyId).id -
        sbf (findFaculty c alloc.facultyId).id →
      1 ≤ S.periodsPerDay →
      (availableRoomsFor c.rooms subj.labRequired ≠ [] →
        ((processAllocation c S sbf sec subj alloc).1.length : Int) =
          min (min alloc.hoursPerWeek ((S.periodsPerDay : Nat) : Int))
            (limitOf c S (findFaculty c alloc.facultyId).id -
              sbf (findFaculty c alloc.facultyId).id) ∧
        1 ≤ (processAllocation c S sbf sec subj alloc).1.length) ∧
      (availableRoomsFor c.rooms subj.labRequired = [] →
        (processAllocation c S sbf sec subj alloc).1 = []) ∧
      (processAllocation c S sbf sec subj alloc).2
          (findFaculty c alloc.facultyId).id =
        sbf (findFaculty c alloc.facultyId).id +
          min (min alloc.hoursPerWeek ((S.periodsPerDay : Nat) : Int))
            (limitOf c S (findFaculty c alloc.facultyId).id -
              sbf (findFaculty c alloc.facultyId).id)) := by
  refine ⟨?_, ?_, ?_⟩
  · intro h
    unfold processAllocation
    rw [if_pos h]
  · intro h hpos
    unfold processAllocation
    rw [if_neg (not_le.mpr hpos)]
    rw [if_pos h]
  · intro h1 h2 h3
    have hneed : max 1 (min (min alloc.hoursPerWeek ((S.periodsPerDay : Nat) : Int))
        (limitOf c S (findFaculty c alloc.facultyId).id -
          sbf (findFaculty c alloc.facultyId).id)) =
        min (min alloc.hoursPerWeek ((S.periodsPerDay : Nat) : Int))
          (limitOf c S (findFaculty c alloc.facultyId).id -
            sbf (findFaculty c alloc.facultyId).id) := by
      have hppd : (1 : Int) ≤ ((S.periodsPerDay : Nat) : Int) := by
        exact_mod_cast h3
      omega
    unfold processAllocation
    rw [if_neg (not_le.mpr h1)]
    rw [if_neg (not_le.mpr h2)]
    by_cases hrm : (availableRoomsFor c.rooms subj.labRequired).isEmpty
    · rw [if_pos hrm]
      have hrmnil : availableRoomsFor c.rooms subj.labRequired = [] :=
        List.isEmpty_iff.mp hrm
      refine ⟨fun hne => absurd hrmnil hne, fun _ => rfl, ?_⟩
      simp only [if_pos rfl]
      rw [hneed]
      simp
    · rw [if_neg hrm]
      have hrmne : availableRoomsFor c.rooms subj.labRequired ≠ [] :=
        fun he => hrm (List.isEmpty_iff.mpr he)
      refine ⟨fun _ => ?_, fun he => absurd he hrmne, ?_⟩
      · simp only [List.length_map, List.length_range]
        constructor
        · rw [Int.toNat_of_nonneg (by omega), hneed]
        · have : (1 : Int) ≤ max 1 (min (min alloc.hoursPerWeek
              ((S.periodsPerDay : Nat) : Int))
              (limitOf c S (findFaculty c alloc.facultyId).id -
                sbf (findFaculty c alloc.facultyId).id)) := le_max_left _ _
          omega
      · simp only [if_pos rfl]
        rw [hneed]
        simp

theorem claim7_witness :
    ((processAllocation demoCat ⟨2, 2⟩ (fun _ => 0) ⟨1, 1, "A"⟩
        ⟨1, 1, "Math", 3, false⟩ ⟨1, 1, 1, 2⟩).1.length : Int) =
      min (min (2 : Int) ((2 : Nat) : Int)) (limitOf demoCat ⟨2, 2⟩ 1 - 0) ∧
    1 ≤ (processAllocation demoCat ⟨2, 2⟩ (fun _ => 0) ⟨1, 1, "A"⟩
        ⟨1, 1, "Math", 3, false⟩ ⟨1, 1, 1, 2⟩).1.length :=
  ((claim7_amended demoCat ⟨2, 2⟩ (fun _ => 0) ⟨1, 1, "A"⟩
      ⟨1, 1, "Math", 3, false⟩ ⟨1, 1, 1, 2⟩).2.2 (by decide) (by decide)
    (by decide)).1 (by decide)

/-- A lab subject, no lab room, one regular room. -/
def c8cat : Catalog :=
  { sections := [⟨1, 1, "A"⟩],
    subjects := [⟨1, 1, "Phys", 3, true⟩],
    faculties := [⟨1, "F1", 18⟩],
    allocations := [⟨1, 1, 1, 1⟩],
    rooms := [⟨1, "R101", false⟩],
    slots := [⟨1, 1, 1⟩],
    settings := some ⟨1, 1⟩ }

/-- C8: when a subject's required room type has no rooms, the Demand
Builder falls back to the rooms of the opposite type as the eligible room
set, every session of that subject placed by the pass lands in a room of
the opposite type, and only a catalog with no rooms of either type makes
the builder skip the subject (it then emits no demand units at all). -/
theorem claim8_room_type_fallback (c : Catalog) (db : List Session)
    (r : ℕ → F) (S : Settings) (subj : Subject) (hS : c.settings = some S)
    (hsec : c.sections ≠ []) (hslots : c.slots ≠ [])
    (hsubj : subj ∈ c.subjects)
    (hsubjids : (c.subjects.map Subject.id).Nodup)
    (hroomids : (c.rooms.map Room.id).Nodup)
    (hreq : c.rooms.filter (fun rm => rm.isLab == subj.labRequired) = []) :
    availableRoomsFor c.rooms subj.labRequired =
      c.rooms.filter (fun rm => rm.isLab == !subj.labRequired) ∧
    (∀ ss ∈ (generateTimetable c db r).2, ss.subjectId = subj.id →
      ∀ rm ∈ c.rooms, rm.id = ss.roomId → rm.isLab = !subj.labRequired) ∧
    (c.rooms = [] → (buildDemandsAll c S).1 = []) := by
  refine ⟨availableRoomsFor_opp hreq, ?_,
    fun hnil => buildDemandsAll_nil_of_rooms_nil hnil⟩
  intro ss hss hsubjid rm hrm hrmid
  rw [gen_snd c db r S hS hsec hslots] at hss
  have hps : passState c S r =
      schedLoop c S (insSort slotLt c.slots) r (sortedDemands c S r).1
        (initSt (sortedDemands c S r).2) := rfl
  rw [hps] at hss
  rcases schedLoop_created_prov c S (insSort slotLt c.slots) r
      (sortedDemands c S r).1 (initSt (sortedDemands c S r).2) ss hss with
    hin | ⟨d, hd, slot, room, hroom, _, hmk⟩
  · exact absurd hin (by simp [initSt])
  · have hd2 : d ∈ (buildDemandsAll c S).1 := mem_sortedDemands.mp hd
    obtain ⟨hds, hdr, _⟩ := buildDemandsAll_shape d hd2
    have hsid : d.subject.id = subj.id := by
      rw [hmk] at hsubjid
      exact hsubjid
    have hdsubj : d.subject = subj :=
      List.inj_on_of_nodup_map hsubjids hds hsubj hsid
    rw [hdsubj] at hdr
    have hroom2 : room ∈ availableRoomsFor c.rooms subj.labRequired := by
      rw [← hdr]; exact hroom
    have hropp : room.isLab = !subj.labRequired :=
      mem_availableRoomsFor_opp hreq room hroom2
    have hroommem : room ∈ c.rooms := by
      rw [availableRoomsFor_opp hreq] at hroom2
      exact (List.mem_filter.mp hroom2).1
    have hrid : rm.id = room.id := by
      rw [hrmid, hmk]
      rfl
    have : rm = room := List.inj_on_of_nodup_map hroomids hrm hroommem hrid
    rw [this]
    exact hropp

theorem claim8_witness :
    availableRoomsFor c8cat.rooms true =
      c8cat.rooms.filter (fun rm => rm.isLab == !true) :=
  (claim8_room_type_fallback c8cat [] rz ⟨1, 1⟩ ⟨1, 1, "Phys", 3, true⟩ rfl
    (by decide) (by decide) (by decide) (by decide) (by decide) (by decide)).1

/-- C10: in every pass that returns, each demand of the sorted queue is
counted exactly once as scheduled or skipped: the statistics satisfy
`scheduled + skipped = total_sessions_needed`, `total_sessions_needed`
is the number of demand units built, and `scheduled` equals both the
length of the returned timetable and the number of `ScheduledSession`
rows created by the pass. -/
theorem claim10_demand_accounting (c : Catalog) (db : List Session)
    (r : ℕ → F) (S : Settings) (out : Output) (hS : c.settings = some S)
    (hsec : c.sections ≠ []) (hslots : c.slots ≠ [])
    (hok : (generateTimetable c db r).1 = Except.ok out) :
    out.stats.scheduled + out.stats.skipped = out.stats.totalSessionsNeeded ∧
    out.stats.totalSessionsNeeded = (buildDemandsAll c S).1.length ∧
    out.stats.scheduled = out.timetable.length ∧
    out.timetable.length = (generateTimetable c db r).2.length := by
  have hrun := gen_checksPass c db r S hS hsec hslots
  have hinv := passState_inv c S r
  by_cases h0 : (passState c S r).scheduled = 0
  · rw [if_pos h0] at hrun
    rw [hrun] at hok
    exact absurd hok (by simp)
  · rw [if_neg h0] at hrun
    rw [hrun] at hok
    simp only at hok
    have hout : okOutput c S r = out := Except.ok.inj hok
    subst hout
    have e1 : (okOutput c S r).stats.scheduled = (passState c S r).scheduled := rfl
    have e2 : (okOutput c S r).stats.skipped = (passState c S r).skipped := rfl
    have e3 : (okOutput c S r).stats.totalSessionsNeeded =
      (sortedDemands c S r).1.length := rfl
    have e4 : (okOutput c S r).timetable = (passState c S r).result := rfl
    have hps : passState c S r =
        schedLoop c S (insSort slotLt c.slots) r (sortedDemands c S r).1
          (initSt (sortedDemands c S r).2) := rfl
    have hcnt := schedLoop_counts c S (insSort slotLt c.slots) r
      (sortedDemands c S r).1 (initSt (sortedDemands c S r).2)
    refine ⟨?_, ?_, ?_, ?_⟩
    · rw [e1, e2, e3, hps]
      simpa [initSt] using hcnt
    · rw [e3]
      exact sortedDemands_length c S r
    · rw [e1, e4, hinv.rlen]
    · rw [e4, gen_snd c db r S hS hsec hslots, hinv.rlen, hinv.clen]

theorem claim10_witness :
    (okOutput demoCat ⟨2, 2⟩ rz).stats.scheduled +
        (okOutput demoCat ⟨2, 2⟩ rz).stats.skipped =
      (okOutput demoCat ⟨2, 2⟩ rz).stats.totalSessionsNeeded ∧
    (okOutput demoCat ⟨2, 2⟩ rz).stats.totalSessionsNeeded =
      (buildDemandsAll demoCat ⟨2, 2⟩).1.length ∧
    (okOutput demoCat ⟨2, 2⟩ rz).stats.scheduled =
      (okOutput demoCat ⟨2, 2⟩ rz).timetable.length ∧
    (okOutput demoCat ⟨2, 2⟩ rz).timetable.length =
      (generateTimetable demoCat [] rz).2.length :=
  claim10_demand_accounting demoCat [] rz ⟨2, 2⟩ (okOutput demoCat ⟨2, 2⟩ rz)
    rfl (by decide) (by decide) rfl

end Timetable
